import Mathlib

/-!
Shallow embedding of the numeric core of the WindTurbineExplainer
blade-harmonics application.

The embedded code is `generateData` and `formatXAxis` from
`src/blade-harmonics-app/src/App.tsx` (the current version, with the
`subtractMean` option), and `generateData` from the earlier version of the
same file (no `subtractMean`). JavaScript numbers are modelled by `ℝ` and
`Math.sin` by `Real.sin`; the loop accumulations `sinSums[i] += sinValue`
and `bladeSin.push` become `Finset` sums and `List.range`/`List.map`.
The only part of the source left abstract is the JavaScript library call
`(x).toFixed(2)` used for the `thetaLabel` field: the embedding is
parameterised by an arbitrary formatter `toFixed2 : ℝ → String`, so every
theorem holds for any implementation of it.
-/

/-- A chart data point as built by `generateData` in `App.tsx`: the angle
`theta`, its printed label `thetaLabel`, the per-blade values `blade0` ..
`blade(numBlades-1)` kept in blade order, and the `sum` series value. -/
structure DataPoint where
  theta : ℝ
  thetaLabel : String
  blades : List ℝ
  sum : ℝ

/-- Default `DataPoint` used by `List.getD` accessors in the statements. -/
def pad : DataPoint := { theta := 0, thetaLabel := "", blades := [], sum := 0 }

/-- `const theta = (2 * Math.PI * i) / resolution` (App.tsx line 42). -/
noncomputable def theta (resolution i : ℕ) : ℝ :=
  2 * Real.pi * i / resolution

/-- `const phase = phaseShift + (2 * Math.PI * b) / numBlades` (App.tsx line 43). -/
noncomputable def phase (numBlades : ℕ) (phaseShift : ℝ) (b : ℕ) : ℝ :=
  phaseShift + 2 * Real.pi * b / numBlades

/-- `const sinValue = Math.sin(theta + phase)` (App.tsx line 44). -/
noncomputable def sinValue (numBlades : ℕ) (phaseShift : ℝ) (resolution i b : ℕ) : ℝ :=
  Real.sin (theta resolution i + phase numBlades phaseShift b)

/-- `const sin2Value = Math.pow(Math.sin(theta + phase), 2)` (App.tsx line 45). -/
noncomputable def sin2Value (numBlades : ℕ) (phaseShift : ℝ) (resolution i b : ℕ) : ℝ :=
  Real.sin (theta resolution i + phase numBlades phaseShift b) ^ 2

/-- `sinSums[i]`, accumulated by `sinSums[i] += sinValue` over the blade loop
(App.tsx lines 37-51). -/
noncomputable def sinSums (numBlades : ℕ) (phaseShift : ℝ) (resolution i : ℕ) : ℝ :=
  ∑ b ∈ Finset.range numBlades, sinValue numBlades phaseShift resolution i b

/-- `sin2Sums[i]`, accumulated by `sin2Sums[i] += sin2Value` (App.tsx lines 37-51). -/
noncomputable def sin2Sums (numBlades : ℕ) (phaseShift : ℝ) (resolution i : ℕ) : ℝ :=
  ∑ b ∈ Finset.range numBlades, sin2Value numBlades phaseShift resolution i b

/-- `sinBladeMeans[b] = bladeDataSin[b].reduce((sum, val) => sum + val, 0) / resolution`
(App.tsx line 66). -/
noncomputable def sinBladeMeans (numBlades : ℕ) (phaseShift : ℝ) (resolution b : ℕ) : ℝ :=
  (∑ i ∈ Finset.range resolution, sinValue numBlades phaseShift resolution i b) / resolution

/-- `sin2BladeMeans[b]` (App.tsx line 67). -/
noncomputable def sin2BladeMeans (numBlades : ℕ) (phaseShift : ℝ) (resolution b : ℕ) : ℝ :=
  (∑ i ∈ Finset.range resolution, sin2Value numBlades phaseShift resolution i b) / resolution

/-- `sinSumMean = sinSums.reduce((sum, val) => sum + val, 0) / resolution`
(App.tsx line 73). -/
noncomputable def sinSumMean (numBlades : ℕ) (phaseShift : ℝ) (resolution : ℕ) : ℝ :=
  (∑ i ∈ Finset.range resolution, sinSums numBlades phaseShift resolution i) / resolution

/-- `sin2SumMean` (App.tsx line 74). -/
noncomputable def sin2SumMean (numBlades : ℕ) (phaseShift : ℝ) (resolution : ℕ) : ℝ :=
  (∑ i ∈ Finset.range resolution, sin2Sums numBlades phaseShift resolution i) / resolution

/-- `const thetaLabel = (theta / Math.PI).toFixed(2) + 'π'` (App.tsx line 80),
with the library call `toFixed(2)` abstracted as the parameter `toFixed2`. -/
noncomputable def thetaLabel (toFixed2 : ℝ → String) (t : ℝ) : String :=
  toFixed2 (t / Real.pi) ++ "π"

/-- The `sinPoint` record assembled in the second pass (App.tsx lines 82-97). -/
noncomputable def sinPoint (toFixed2 : ℝ → String) (numBlades : ℕ) (phaseShift : ℝ)
    (resolution : ℕ) (subtractMean : Bool) (i : ℕ) : DataPoint :=
  { theta := theta resolution i
    thetaLabel := thetaLabel toFixed2 (theta resolution i)
    blades := (List.range numBlades).map fun b =>
      if subtractMean then
        sinValue numBlades phaseShift resolution i b - sinBladeMeans numBlades phaseShift resolution b
      else
        sinValue numBlades phaseShift resolution i b
    sum := if subtractMean then
        sinSums numBlades phaseShift resolution i - sinSumMean numBlades phaseShift resolution
      else
        sinSums numBlades phaseShift resolution i }

/-- The `sin2Point` record assembled in the second pass (App.tsx lines 83-98). -/
noncomputable def sin2Point (toFixed2 : ℝ → String) (numBlades : ℕ) (phaseShift : ℝ)
    (resolution : ℕ) (subtractMean : Bool) (i : ℕ) : DataPoint :=
  { theta := theta resolution i
    thetaLabel := thetaLabel toFixed2 (theta resolution i)
    blades := (List.range numBlades).map fun b =>
      if subtractMean then
        sin2Value numBlades phaseShift resolution i b - sin2BladeMeans numBlades phaseShift resolution b
      else
        sin2Value numBlades phaseShift resolution i b
    sum := if subtractMean then
        sin2Sums numBlades phaseShift resolution i - sin2SumMean numBlades phaseShift resolution
      else
        sin2Sums numBlades phaseShift resolution i }

/-- `generateData` from the current `App.tsx` (lines 21-102): returns the pair
`(sinData, sin2Data)`, each a list of `resolution` points pushed in order of
increasing sample index `i`. -/
noncomputable def generateData (toFixed2 : ℝ → String) (numBlades : ℕ) (phaseShift : ℝ)
    (resolution : ℕ) (subtractMean : Bool) : List DataPoint × List DataPoint :=
  ((List.range resolution).map (sinPoint toFixed2 numBlades phaseShift resolution subtractMean),
   (List.range resolution).map (sin2Point toFixed2 numBlades phaseShift resolution subtractMean))

/-- The `sinPoint` record of the earlier `App.tsx` (part_000 lines 28-46): the
per-blade values are the raw sines and `sum` is the inline accumulation
`sinSum += sinValue`. -/
noncomputable def oldSinPoint (toFixed2 : ℝ → String) (numBlades : ℕ) (phaseShift : ℝ)
    (resolution i : ℕ) : DataPoint :=
  { theta := theta resolution i
    thetaLabel := thetaLabel toFixed2 (theta resolution i)
    blades := (List.range numBlades).map fun b => sinValue numBlades phaseShift resolution i b
    sum := ∑ b ∈ Finset.range numBlades, sinValue numBlades phaseShift resolution i b }

/-- The `sin2Point` record of the earlier `App.tsx` (part_000 lines 29-47). -/
noncomputable def oldSin2Point (toFixed2 : ℝ → String) (numBlades : ℕ) (phaseShift : ℝ)
    (resolution i : ℕ) : DataPoint :=
  { theta := theta resolution i
    thetaLabel := thetaLabel toFixed2 (theta resolution i)
    blades := (List.range numBlades).map fun b => sin2Value numBlades phaseShift resolution i b
    sum := ∑ b ∈ Finset.range numBlades, sin2Value numBlades phaseShift resolution i b }

/-- `generateData` from the earlier `App.tsx` (part_000 lines 20-54): no
`subtractMean` parameter, single pass over sample indices. -/
noncomputable def oldGenerateData (toFixed2 : ℝ → String) (numBlades : ℕ) (phaseShift : ℝ)
    (resolution : ℕ) : List DataPoint × List DataPoint :=
  ((List.range resolution).map (oldSinPoint toFixed2 numBlades phaseShift resolution),
   (List.range resolution).map (oldSin2Point toFixed2 numBlades phaseShift resolution))

/-- `formatXAxis` from `App.tsx` (lines 107-115). -/
noncomputable def formatXAxis (value : ℝ) : String :=
  let piValue := value / Real.pi
  if piValue = 0 then "0"
  else if piValue = 0.5 then "π/2"
  else if piValue = 1 then "π"
  else if piValue = 1.5 then "3π/2"
  else if piValue = 2 then "2π"
  else ""


/-- C1 counterexample: called with `bladeCount = 0` (and `resolution = 4`) the
code does not fail; it returns a dataset of 4 samples in each series. -/
theorem generateData_zero_blades_returns_data :
    (generateData (fun _ => "") 0 0 4 false).1.length = 4 ∧
    (generateData (fun _ => "") 0 0 4 false).2.length = 4 := by
  constructor <;> simp [generateData]

/-- C1 (amended): `generateData` performs no domain validation.  With
`resolution = 0` it returns two empty datasets, and with `bladeCount = 0` it
returns two datasets of length `resolution` whose samples carry no per-blade
values and whose `sum` field is `0`, for either value of `subtractMean`. -/
theorem generateData_no_validation (toFixed2 : ℝ → String) (numBlades : ℕ) (phaseShift : ℝ)
    (resolution : ℕ) (subtractMean : Bool) (i : ℕ) (hi : i < resolution) :
    generateData toFixed2 numBlades phaseShift 0 subtractMean = ([], []) ∧
    (generateData toFixed2 0 phaseShift resolution subtractMean).1.length = resolution ∧
    (generateData toFixed2 0 phaseShift resolution subtractMean).2.length = resolution ∧
    ((generateData toFixed2 0 phaseShift resolution subtractMean).1.getD i pad).blades = [] ∧
    ((generateData toFixed2 0 phaseShift resolution subtractMean).1.getD i pad).sum = 0 ∧
    ((generateData toFixed2 0 phaseShift resolution subtractMean).2.getD i pad).blades = [] ∧
    ((generateData toFixed2 0 phaseShift resolution subtractMean).2.getD i pad).sum = 0 := by
  refine ⟨by simp [generateData], by simp [generateData], by simp [generateData], ?_, ?_, ?_, ?_⟩ <;>
    simp [generateData, List.getElem?_range hi, sinPoint, sin2Point, sinSums, sin2Sums,
      sinSumMean, sin2SumMean]

theorem generateData_no_validation_witness :
    (1 < 4) ∧ generateData (fun _ => "") 2 0 0 true = ([], []) :=
  ⟨by decide, (generateData_no_validation (fun _ => "") 2 0 4 true 1 (by decide)).1⟩

/-- C2: with `subtractMean = false`, sample `i` of the sine dataset has angle
`2π·i/resolution`, its blade-`b` value is `sin(angle + phaseShift + 2π·b/bladeCount)`,
and the squared dataset stores the square of that sine. -/
theorem generateData_raw_values (toFixed2 : ℝ → String) (numBlades : ℕ) (phaseShift : ℝ)
    (resolution i b : ℕ) (hB : 0 < numBlades) (hres : 0 < resolution)
    (hi : i < resolution) (hb : b < numBlades) :
    ((generateData toFixed2 numBlades phaseShift resolution false).1.getD i pad).theta
      = 2 * Real.pi * i / resolution ∧
    ((generateData toFixed2 numBlades phaseShift resolution false).1.getD i pad).blades.getD b 0
      = Real.sin (2 * Real.pi * i / resolution + (phaseShift + 2 * Real.pi * b / numBlades)) ∧
    ((generateData toFixed2 numBlades phaseShift resolution false).2.getD i pad).blades.getD b 0
      = Real.sin (2 * Real.pi * i / resolution + (phaseShift + 2 * Real.pi * b / numBlades)) ^ 2 := by
  refine ⟨?_, ?_, ?_⟩ <;>
    simp [generateData, List.getElem?_range hi, sinPoint, sin2Point,
      List.getElem?_range hb, sinValue, sin2Value, theta, phase]

theorem generateData_raw_values_witness :
    ((generateData (fun _ => "") 3 0 4 false).1.getD 1 pad).theta
      = 2 * Real.pi * ((1:ℕ):ℝ) / ((4:ℕ):ℝ) :=
  (generateData_raw_values (fun _ => "") 3 0 4 1 2 (by decide) (by decide) (by decide)
    (by decide)).1

/-- C3: in every sample of both datasets the `sum` field equals the sum of the
stored per-blade values when `subtractMean = false`, and equals the sum of the
raw per-blade values minus the mean over the rotation of the per-sample sums
when `subtractMean = true`. -/
theorem generateData_sum_invariant (toFixed2 : ℝ → String) (numBlades : ℕ) (phaseShift : ℝ)
    (resolution i : ℕ) (hB : 0 < numBlades) (hres : 0 < resolution) (hi : i < resolution) :
    (((generateData toFixed2 numBlades phaseShift resolution false).1.getD i pad).sum
      = ∑ b ∈ Finset.range numBlades,
          ((generateData toFixed2 numBlades phaseShift resolution false).1.getD i pad).blades.getD b 0) ∧
    (((generateData toFixed2 numBlades phaseShift resolution false).2.getD i pad).sum
      = ∑ b ∈ Finset.range numBlades,
          ((generateData toFixed2 numBlades phaseShift resolution false).2.getD i pad).blades.getD b 0) ∧
    (((generateData toFixed2 numBlades phaseShift resolution true).1.getD i pad).sum
      = (∑ b ∈ Finset.range numBlades, sinValue numBlades phaseShift resolution i b)
        - (∑ j ∈ Finset.range resolution, ∑ b ∈ Finset.range numBlades,
            sinValue numBlades phaseShift resolution j b) / resolution) ∧
    (((generateData toFixed2 numBlades phaseShift resolution true).2.getD i pad).sum
      = (∑ b ∈ Finset.range numBlades, sin2Value numBlades phaseShift resolution i b)
        - (∑ j ∈ Finset.range resolution, ∑ b ∈ Finset.range numBlades,
            sin2Value numBlades phaseShift resolution j b) / resolution) := by
  refine ⟨?_, ?_, ?_, ?_⟩
  · have hs : ((generateData toFixed2 numBlades phaseShift resolution false).1.getD i pad).sum
        = sinSums numBlades phaseShift resolution i := by
      simp [generateData, List.getElem?_range hi, sinPoint]
    rw [hs, sinSums]
    refine Finset.sum_congr rfl fun b hb => ?_
    have hb' := Finset.mem_range.mp hb
    simp [generateData, List.getElem?_range hi, sinPoint, List.getElem?_range hb']
  · have hs : ((generateData toFixed2 numBlades phaseShift resolution false).2.getD i pad).sum
        = sin2Sums numBlades phaseShift resolution i := by
      simp [generateData, List.getElem?_range hi, sin2Point]
    rw [hs, sin2Sums]
    refine Finset.sum_congr rfl fun b hb => ?_
    have hb' := Finset.mem_range.mp hb
    simp [generateData, List.getElem?_range hi, sin2Point, List.getElem?_range hb']
  · simp [generateData, List.getElem?_range hi, sinPoint, sinSums, sinSumMean]
  · simp [generateData, List.getElem?_range hi, sin2Point, sin2Sums, sin2SumMean]

theorem generateData_sum_invariant_witness :
    ((generateData (fun _ => "") 3 0 4 false).1.getD 1 pad).sum
      = ∑ b ∈ Finset.range 3,
          ((generateData (fun _ => "") 3 0 4 false).1.getD 1 pad).blades.getD b 0 :=
  (generateData_sum_invariant (fun _ => "") 3 0 4 1 (by decide) (by decide) (by decide)).1

/-- C4: for any `subtractMean`, both datasets have length exactly `resolution`
and their samples are ordered with strictly increasing `theta`. -/
theorem generateData_length_and_sorted (toFixed2 : ℝ → String) (numBlades : ℕ) (phaseShift : ℝ)
    (resolution : ℕ) (subtractMean : Bool) (hB : 0 < numBlades) (hres : 0 < resolution) :
    (generateData toFixed2 numBlades phaseShift resolution subtractMean).1.length = resolution ∧
    (generateData toFixed2 numBlades phaseShift resolution subtractMean).2.length = resolution ∧
    ∀ i j : ℕ, i < j → j < resolution →
      ((generateData toFixed2 numBlades phaseShift resolution subtractMean).1.getD i pad).theta
        < ((generateData toFixed2 numBlades phaseShift resolution subtractMean).1.getD j pad).theta ∧
      ((generateData toFixed2 numBlades phaseShift resolution subtractMean).2.getD i pad).theta
        < ((generateData toFixed2 numBlades phaseShift resolution subtractMean).2.getD j pad).theta := by
  refine ⟨by simp [generateData], by simp [generateData], ?_⟩
  intro i j hij hj
  have hi : i < resolution := lt_trans hij hj
  have key : theta resolution i < theta resolution j := by
    unfold theta
    have hres2 : (0:ℝ) < resolution := by exact_mod_cast hres
    have hij2 : (i:ℝ) < j := by exact_mod_cast hij
    rw [div_lt_div_iff_of_pos_right hres2]
    have h2pi : (0:ℝ) < 2 * Real.pi := by positivity
    exact (mul_lt_mul_left h2pi).mpr hij2
  constructor
  · simpa [generateData, List.getElem?_range hi, List.getElem?_range hj, sinPoint] using key
  · simpa [generateData, List.getElem?_range hi, List.getElem?_range hj, sin2Point] using key

theorem generateData_length_and_sorted_witness :
    (generateData (fun _ => "") 3 0 4 true).1.length = 4 :=
  (generateData_length_and_sorted (fun _ => "") 3 0 4 true (by decide) (by decide)).1

/-- C5: with `subtractMean = true` each stored per-blade value is the raw value
minus the unweighted arithmetic mean of that blade's raw values over the
`resolution` samples; with `subtractMean = false` the raw value is stored
unchanged. -/
theorem generateData_mean_subtraction (toFixed2 : ℝ → String) (numBlades : ℕ) (phaseShift : ℝ)
    (resolution i b : ℕ) (hB : 0 < numBlades) (hres : 0 < resolution)
    (hi : i < resolution) (hb : b < numBlades) :
    ((generateData toFixed2 numBlades phaseShift resolution true).1.getD i pad).blades.getD b 0
      = sinValue numBlades phaseShift resolution i b
        - (∑ j ∈ Finset.range resolution, sinValue numBlades phaseShift resolution j b)
          / resolution ∧
    ((generateData toFixed2 numBlades phaseShift resolution true).2.getD i pad).blades.getD b 0
      = sin2Value numBlades phaseShift resolution i b
        - (∑ j ∈ Finset.range resolution, sin2Value numBlades phaseShift resolution j b)
          / resolution ∧
    ((generateData toFixed2 numBlades phaseShift resolution false).1.getD i pad).blades.getD b 0
      = sinValue numBlades phaseShift resolution i b ∧
    ((generateData toFixed2 numBlades phaseShift resolution false).2.getD i pad).blades.getD b 0
      = sin2Value numBlades phaseShift resolution i b := by
  refine ⟨?_, ?_, ?_, ?_⟩ <;>
    simp [generateData, List.getElem?_range hi, sinPoint, sin2Point,
      List.getElem?_range hb, sinBladeMeans, sin2BladeMeans]

theorem generateData_mean_subtraction_witness :
    ((generateData (fun _ => "") 3 0 4 true).1.getD 1 pad).blades.getD 2 0
      = sinValue 3 0 4 1 2 - (∑ j ∈ Finset.range 4, sinValue 3 0 4 j 2) / ((4:ℕ):ℝ) :=
  (generateData_mean_subtraction (fun _ => "") 3 0 4 1 2 (by decide) (by decide) (by decide)
    (by decide)).1

/-- C9: with `subtractMean = false` the current `generateData` produces exactly
the same pair of datasets as the earlier implementation that had no
`subtractMean` parameter, for every input. -/
theorem generateData_refines_old (toFixed2 : ℝ → String) (numBlades : ℕ) (phaseShift : ℝ)
    (resolution : ℕ) :
    generateData toFixed2 numBlades phaseShift resolution false
      = oldGenerateData toFixed2 numBlades phaseShift resolution := by
  have h1 : sinPoint toFixed2 numBlades phaseShift resolution false
      = oldSinPoint toFixed2 numBlades phaseShift resolution := by
    funext i
    simp [sinPoint, oldSinPoint, sinSums]
  have h2 : sin2Point toFixed2 numBlades phaseShift resolution false
      = oldSin2Point toFixed2 numBlades phaseShift resolution := by
    funext i
    simp [sin2Point, oldSin2Point, sin2Sums]
  unfold generateData oldGenerateData
  rw [h1, h2]

/-- C10: with `subtractMean = false` every stored per-blade value of the
squared-sine dataset is nonnegative, and so is its `sum` field. -/
theorem generateData_sin2_nonneg (toFixed2 : ℝ → String) (numBlades : ℕ) (phaseShift : ℝ)
    (resolution i b : ℕ) (hB : 0 < numBlades) (hres : 0 < resolution)
    (hi : i < resolution) (hb : b < numBlades) :
    0 ≤ ((generateData toFixed2 numBlades phaseShift resolution false).2.getD i pad).blades.getD b 0 ∧
    0 ≤ ((generateData toFixed2 numBlades phaseShift resolution false).2.getD i pad).sum := by
  constructor
  · have hv : ((generateData toFixed2 numBlades phaseShift resolution false).2.getD i pad).blades.getD b 0
        = sin2Value numBlades phaseShift resolution i b := by
      simp [generateData, List.getElem?_range hi, sin2Point, List.getElem?_range hb]
    rw [hv, sin2Value]
    positivity
  · have hs : ((generateData toFixed2 numBlades phaseShift resolution false).2.getD i pad).sum
        = sin2Sums numBlades phaseShift resolution i := by
      simp [generateData, List.getElem?_range hi, sin2Point]
    rw [hs, sin2Sums]
    refine Finset.sum_nonneg fun b _ => ?_
    rw [sin2Value]
    positivity

theorem generateData_sin2_nonneg_witness :
    0 ≤ ((generateData (fun _ => "") 3 0 4 false).2.getD 1 pad).blades.getD 2 0 :=
  (generateData_sin2_nonneg (fun _ => "") 3 0 4 1 2 (by decide) (by decide) (by decide)
    (by decide)).1

theorem sum_exp_unit (B k : ℕ) (hk : 0 < k) (hkB : k < B) :
    ∑ b ∈ Finset.range B, Complex.exp (((2 * Real.pi * k / B : ℝ)) * Complex.I) ^ b = 0 := by
  have hB0 : 0 < B := lt_trans hk hkB
  have hBneC : (B:ℂ) ≠ 0 := Nat.cast_ne_zero.mpr hB0.ne'
  have hrB : Complex.exp (((2 * Real.pi * k / B : ℝ)) * Complex.I) ^ B = 1 := by
    rw [← Complex.exp_nat_mul]
    have h1 : (B:ℂ) * (((2 * Real.pi * k / B : ℝ):ℂ) * Complex.I)
        = ((k:ℤ):ℂ) * (2 * (Real.pi:ℂ) * Complex.I) := by
      push_cast
      field_simp
      ring
    rw [h1, Complex.exp_int_mul_two_pi_mul_I]
  have hr1 : Complex.exp (((2 * Real.pi * k / B : ℝ)) * Complex.I) ≠ 1 := by
    rw [Ne, Complex.exp_eq_one_iff]
    rintro ⟨n, hn⟩
    have hpi : (Real.pi:ℂ) ≠ 0 := by
      exact_mod_cast Real.pi_ne_zero
    have hI := Complex.I_ne_zero
    push_cast at hn
    have h2 : (k:ℂ) = n * B := by
      field_simp at hn
      have h3 : (2 * (Real.pi:ℂ) * Complex.I) * (k:ℂ)
          = (2 * (Real.pi:ℂ) * Complex.I) * ((n:ℂ) * B) := by
        ring_nf
        ring_nf at hn
        linear_combination hn
      exact mul_left_cancel₀ (by simp [hpi, hI]) h3
    have h4 : (k:ℤ) = n * B := by exact_mod_cast h2
    have hk2 : (0:ℤ) < k := by exact_mod_cast hk
    have hkB2 : (k:ℤ) < B := by exact_mod_cast hkB
    have hB2 : (0:ℤ) < B := by exact_mod_cast hB0
    rcases le_or_lt n 0 with h | h
    · nlinarith
    · have hn1 : (1:ℤ) ≤ n := h
      nlinarith
  rw [geom_sum_eq hr1, hrB]
  simp

theorem exp_term_split (B k : ℕ) (hB0 : 0 < B) (x : ℝ) (b : ℕ) :
    Complex.exp (((x + 2 * Real.pi * k * b / B : ℝ)) * Complex.I)
      = Complex.exp ((x:ℂ) * Complex.I)
        * Complex.exp (((2 * Real.pi * k / B : ℝ)) * Complex.I) ^ b := by
  rw [← Complex.exp_nat_mul, ← Complex.exp_add]
  congr 1
  have hBneC : (B:ℂ) ≠ 0 := Nat.cast_ne_zero.mpr hB0.ne'
  push_cast
  field_simp
  ring

theorem sum_sin_phases (B k : ℕ) (hk : 0 < k) (hkB : k < B) (x : ℝ) :
    ∑ b ∈ Finset.range B, Real.sin (x + 2 * Real.pi * k * b / B) = 0 := by
  have hB0 : 0 < B := lt_trans hk hkB
  calc ∑ b ∈ Finset.range B, Real.sin (x + 2 * Real.pi * k * b / B)
      = ∑ b ∈ Finset.range B,
          (Complex.exp (((x + 2 * Real.pi * k * b / B : ℝ)) * Complex.I)).im :=
        Finset.sum_congr rfl fun b _ => (Complex.exp_ofReal_mul_I_im _).symm
    _ = (∑ b ∈ Finset.range B,
          Complex.exp (((x + 2 * Real.pi * k * b / B : ℝ)) * Complex.I)).im :=
        (Complex.im_sum _ _).symm
    _ = ((Complex.exp ((x:ℂ) * Complex.I))
          * ∑ b ∈ Finset.range B,
              Complex.exp (((2 * Real.pi * k / B : ℝ)) * Complex.I) ^ b).im := by
        rw [Finset.mul_sum]
        congr 1
        exact Finset.sum_congr rfl fun b _ => exp_term_split B k hB0 x b
    _ = 0 := by rw [sum_exp_unit B k hk hkB, mul_zero, Complex.zero_im]

theorem sum_cos_phases (B k : ℕ) (hk : 0 < k) (hkB : k < B) (x : ℝ) :
    ∑ b ∈ Finset.range B, Real.cos (x + 2 * Real.pi * k * b / B) = 0 := by
  have hB0 : 0 < B := lt_trans hk hkB
  calc ∑ b ∈ Finset.range B, Real.cos (x + 2 * Real.pi * k * b / B)
      = ∑ b ∈ Finset.range B,
          (Complex.exp (((x + 2 * Real.pi * k * b / B : ℝ)) * Complex.I)).re :=
        Finset.sum_congr rfl fun b _ => (Complex.exp_ofReal_mul_I_re _).symm
    _ = (∑ b ∈ Finset.range B,
          Complex.exp (((x + 2 * Real.pi * k * b / B : ℝ)) * Complex.I)).re :=
        (Complex.re_sum _ _).symm
    _ = ((Complex.exp ((x:ℂ) * Complex.I))
          * ∑ b ∈ Finset.range B,
              Complex.exp (((2 * Real.pi * k / B : ℝ)) * Complex.I) ^ b).re := by
        rw [Finset.mul_sum]
        congr 1
        exact Finset.sum_congr rfl fun b _ => exp_term_split B k hB0 x b
    _ = 0 := by rw [sum_exp_unit B k hk hkB, mul_zero, Complex.zero_re]

theorem sum_sin_sq_phases (B : ℕ) (hB : 3 ≤ B) (x : ℝ) :
    ∑ b ∈ Finset.range B, Real.sin (x + 2 * Real.pi * b / B) ^ 2 = B / 2 := by
  have h2B : 2 < B := hB
  have hcos := sum_cos_phases B 2 (by norm_num) h2B (2 * x)
  push_cast at hcos
  have hsq : ∀ b ∈ Finset.range B, Real.sin (x + 2 * Real.pi * b / B) ^ 2
      = 1 / 2 - Real.cos (2 * x + 2 * Real.pi * 2 * b / B) / 2 := by
    intro b _
    rw [Real.sin_sq_eq_half_sub]
    congr 2
    ring
  rw [Finset.sum_congr rfl hsq, Finset.sum_sub_distrib, Finset.sum_const, Finset.card_range,
    ← Finset.sum_div, hcos]
  push_cast [nsmul_eq_mul]
  ring

/-- C6: for `bladeCount ≥ 2` the per-sample sum of the sine values vanishes
exactly (in the real-number model the cancellation is exact, hence within any
floating-point tolerance): the `sum` field of every sine-dataset sample is 0. -/
theorem generateData_sine_cancellation (toFixed2 : ℝ → String) (numBlades : ℕ)
    (phaseShift : ℝ) (resolution i : ℕ) (hB : 2 ≤ numBlades) (hres : 0 < resolution)
    (hi : i < resolution) :
    ((generateData toFixed2 numBlades phaseShift resolution false).1.getD i pad).sum = 0 := by
  have hs : ((generateData toFixed2 numBlades phaseShift resolution false).1.getD i pad).sum
      = sinSums numBlades phaseShift resolution i := by
    simp [generateData, List.getElem?_range hi, sinPoint]
  rw [hs, sinSums]
  calc ∑ b ∈ Finset.range numBlades, sinValue numBlades phaseShift resolution i b
      = ∑ b ∈ Finset.range numBlades,
          Real.sin ((theta resolution i + phaseShift) + 2 * Real.pi * 1 * b / numBlades) := by
        refine Finset.sum_congr rfl fun b _ => ?_
        rw [sinValue, phase]
        congr 1
        push_cast
        ring
    _ = 0 := by
        have h := sum_sin_phases numBlades 1 (by norm_num) (by omega)
          (theta resolution i + phaseShift)
        push_cast at h
        exact h

theorem generateData_sine_cancellation_witness :
    ((generateData (fun _ => "") 3 0 4 false).1.getD 1 pad).sum = 0 :=
  generateData_sine_cancellation (fun _ => "") 3 0 4 1 (by decide) (by decide) (by decide)

/-- C7 counterexample: with `bladeCount = 1`, `phaseShift = 0`, `resolution = 4`
the squared-sine sum at sample index 1 (angle π/2) is `sin²(π/2) = 1`, which is
not `bladeCount/2 = 1/2`; the claimed identity fails for `bladeCount < 3`. -/
theorem generateData_sin2_sum_varies :
    ((generateData (fun _ => "") 1 0 4 false).2.getD 1 pad).sum ≠ (1:ℕ) / 2 := by
  have hs : ((generateData (fun _ => "") 1 0 4 false).2.getD 1 pad).sum
      = sin2Sums 1 0 4 1 := by
    simp [generateData, List.getElem?_range (show 1 < 4 by norm_num), sin2Point]
  rw [hs, sin2Sums, Finset.sum_range_one, sin2Value, theta, phase]
  have harg : 2 * Real.pi * ((1:ℕ):ℝ) / ((4:ℕ):ℝ) + (0 + 2 * Real.pi * ((0:ℕ):ℝ) / ((1:ℕ):ℝ))
      = Real.pi / 2 := by
    push_cast
    ring
  rw [harg, Real.sin_pi_div_two, one_pow]
  norm_num

/-- C7 (amended): for `bladeCount ≥ 3` the per-sample sum of the squared-sine
values equals exactly `bladeCount/2`, independent of `phaseShift` and of the
angle: the `sum` field of every squared-sine-dataset sample is `bladeCount/2`.
(For `bladeCount = 1` the sum is `sin²(angle+phaseShift)` and for
`bladeCount = 2` it is `2·sin²(angle+phaseShift)`, both angle-dependent.) -/
theorem generateData_sin2_identity (toFixed2 : ℝ → String) (numBlades : ℕ)
    (phaseShift : ℝ) (resolution i : ℕ) (hB : 3 ≤ numBlades) (hres : 0 < resolution)
    (hi : i < resolution) :
    ((generateData toFixed2 numBlades phaseShift resolution false).2.getD i pad).sum
      = numBlades / 2 := by
  have hs : ((generateData toFixed2 numBlades phaseShift resolution false).2.getD i pad).sum
      = sin2Sums numBlades phaseShift resolution i := by
    simp [generateData, List.getElem?_range hi, sin2Point]
  rw [hs, sin2Sums]
  calc ∑ b ∈ Finset.range numBlades, sin2Value numBlades phaseShift resolution i b
      = ∑ b ∈ Finset.range numBlades,
          Real.sin ((theta resolution i + phaseShift) + 2 * Real.pi * b / numBlades) ^ 2 := by
        refine Finset.sum_congr rfl fun b _ => ?_
        rw [sin2Value, phase]
        congr 2
        ring
    _ = numBlades / 2 := sum_sin_sq_phases numBlades hB _

theorem generateData_sin2_identity_witness :
    ((generateData (fun _ => "") 3 0 4 false).2.getD 1 pad).sum = ((3:ℕ):ℝ) / 2 :=
  generateData_sin2_identity (fun _ => "") 3 0 4 1 (by decide) (by decide) (by decide)

/-- C8: `formatXAxis` maps `0`, `π/2`, `π`, `3π/2`, `2π` to their labels and
every other value to the empty string. -/
theorem formatXAxis_spec :
    formatXAxis 0 = "0" ∧ formatXAxis (Real.pi / 2) = "π/2" ∧ formatXAxis Real.pi = "π" ∧
    formatXAxis (3 * Real.pi / 2) = "3π/2" ∧ formatXAxis (2 * Real.pi) = "2π" ∧
    ∀ v : ℝ, v ≠ 0 → v ≠ Real.pi / 2 → v ≠ Real.pi → v ≠ 3 * Real.pi / 2 → v ≠ 2 * Real.pi →
      formatXAxis v = "" := by
  have hpi := Real.pi_ne_zero
  refine ⟨?_, ?_, ?_, ?_, ?_, ?_⟩
  · simp [formatXAxis]
  · have key : Real.pi / 2 / Real.pi = 0.5 := by
      rw [show (0.5:ℝ) = 1 / 2 by norm_num]
      field_simp
      ring
    simp only [formatXAxis]
    rw [key]
    norm_num
  · have key : Real.pi / Real.pi = 1 := div_self hpi
    simp only [formatXAxis]
    rw [key]
    norm_num
  · have key : 3 * Real.pi / 2 / Real.pi = 1.5 := by
      rw [show (1.5:ℝ) = 3 / 2 by norm_num]
      field_simp
      ring
    simp only [formatXAxis]
    rw [key]
    norm_num
  · have key : 2 * Real.pi / Real.pi = 2 := by
      field_simp
    simp only [formatXAxis]
    rw [key]
    norm_num
  · intro v h1 h2 h3 h4 h5
    have c1 : ¬(v / Real.pi = 0) := by
      rw [div_eq_zero_iff]
      push_neg
      exact ⟨h1, hpi⟩
    have c2 : ¬(v / Real.pi = 0.5) := by
      rw [div_eq_iff hpi]
      intro h
      exact h2 (h.trans (by ring))
    have c3 : ¬(v / Real.pi = 1) := by
      rw [div_eq_iff hpi]
      intro h
      exact h3 (h.trans (by ring))
    have c4 : ¬(v / Real.pi = 1.5) := by
      rw [div_eq_iff hpi]
      intro h
      exact h4 (h.trans (by ring))
    have c5 : ¬(v / Real.pi = 2) := by
      rw [div_eq_iff hpi]
      intro h
      exact h5 (h.trans (by ring))
    simp only [formatXAxis]
    rw [if_neg c1, if_neg c2, if_neg c3, if_neg c4, if_neg c5]

theorem formatXAxis_spec_witness :
    formatXAxis 1 = "" :=
  formatXAxis_spec.2.2.2.2.2 1 (by norm_num)
    (fun h => by
      have hgt : (1:ℝ) < Real.pi / 2 := by linarith [Real.pi_gt_three]
      exact absurd h hgt.ne)
    (fun h => by
      have hgt : (1:ℝ) < Real.pi := by linarith [Real.pi_gt_three]
      exact absurd h hgt.ne)
    (fun h => by
      have hgt : (1:ℝ) < 3 * Real.pi / 2 := by linarith [Real.pi_gt_three]
      exact absurd h hgt.ne)
    (fun h => by
      have hgt : (1:ℝ) < 2 * Real.pi := by linarith [Real.pi_gt_three]
      exact absurd h hgt.ne)
